import Mathlib

/-!
Shallow embedding of the Live Prediction and Reconciliation Pipeline of the
ai-polymarket-sportspicker repository: the data model from
src/tools/polymarket_client.py and src/tools/supabase_client.py, the predictor
from src/predictor.py, and the scorer from src/scorer.py.

Conventions of the embedding:
- prices and model confidences (Python floats holding probabilities) are
  rational numbers;
- Python None / optional values become Option, Python exceptions become Except;
- Python string operations used by the code (str.lower, str.capitalize) are
  re-implemented by structural recursion over the character list so that
  concrete instances evaluate inside the kernel; they agree with Python on the
  ASCII data this pipeline handles;
- attribute access and dict-style .get access on a token both become record
  field access on the Token structure;
- the opaque ML artifacts (joblib / keras models, meta-learner) are embedded as
  functions from a feature vector to Except Unit Q: a loaded model is a
  function, a model call that raises is a function returning Except.error.
-/

namespace SportsPicker

/-- Python str.lower restricted to ASCII, by structural recursion on the
character list. -/
def pyLower (s : String) : String := ⟨s.data.map Char.toLower⟩

/-- Python str.capitalize: first character uppercased, all following characters
lowercased (ASCII). -/
def pyCapitalize (s : String) : String :=
  match s.data with
  | [] => ""
  | c :: cs => ⟨Char.toUpper c :: cs.map Char.toLower⟩

/-- Python truthiness of an optional string: None and the empty string are
falsy, every other string is truthy. -/
def truthyStr : Option String → Bool
  | none => false
  | some s => s != ""

/-- Python truthiness of an optional bool: only Some true is truthy
(None and False are falsy). -/
def truthyBool : Option Bool → Bool
  | some b => b
  | none => false

/-- polymarket_client.Token (pydantic model): a binary outcome token with an
outcome label and an optional price. -/
structure Token where
  token_id : String
  outcome : String
  price : Option ℚ
deriving DecidableEq, Repr

/-- polymarket_client.Market, restricted to the fields the predictor and the
scorer read (the remaining fields are free-text metadata never consulted by the
pipeline logic embedded here). -/
structure Market where
  condition_id : String
  question : String
  tokens : List Token
  active : Bool
  closed : Bool
  accepting_orders : Bool
deriving DecidableEq, Repr

/-- supabase_client.Prediction (pydantic model). -/
structure Prediction where
  id : Option String
  market_id : String
  sport : String
  event_name : String
  predicted_outcome : String
  historical_confidence : ℚ
  sentiment_confidence : ℚ
  hybrid_confidence : ℚ
  actual_outcome : Option String
  is_correct : Option Bool
  created_at : Option String
  resolved_at : Option String
deriving DecidableEq, Repr

/-- supabase_client.ModelMetrics (pydantic model). -/
structure ModelMetrics where
  model_type : String
  accuracy_7d : ℚ
  accuracy_30d : ℚ
  total_predictions : Nat
  correct_predictions : Nat
  updated_at : Option String
deriving DecidableEq, Repr

/-- The branch logic of PredictionScorer.get_market_outcome (src/scorer.py,
lines 60-87), with the dict-style token.get reads taken as Token field access:
None for a market that is not closed; otherwise the capitalized label of the
first token whose price is exactly 1.0; otherwise the capitalized label of the
first token whose price exceeds 0.95; otherwise None. The two for-loops with
early return become two List.find? passes.

Market.tokens actually holds pydantic Token objects, which carry no .get
method, so the token-reading branches of the real function raise instead of
returning; get_market_outcome_py below models that attribute semantics. This
total version captures the label logic the branches encode, and it agrees
with the real function on every input where the real function returns at all
(open markets and closed markets with an empty token list, where both give
None). -/
def get_market_outcome (m : Market) : Option String :=
  if !m.closed then none
  else
    match m.tokens.find? (fun t => decide (t.price = some 1)) with
    | some t => some (pyCapitalize t.outcome)
    | none =>
      match m.tokens.find?
          (fun t => match t.price with
            | some p => decide ((0.95 : ℚ) < p)
            | none => false) with
      | some t => some (pyCapitalize t.outcome)
      | none => none

/-- PredictionScorer.get_market_outcome with the actual Python attribute
semantics. Market.tokens is list of pydantic Token models
(polymarket_client.py, lines 63-79), and both loop bodies start by calling
dict-style token.get on a Token, which raises AttributeError on the first
token since pydantic models have no .get method. A closed market therefore
raises unless its token list is empty; the error value stands for that
AttributeError. Only the closed gate, which runs before any token access, and
the empty-token fallthrough return normally. -/
def get_market_outcome_py (m : Market) : Except Unit (Option String) :=
  if !m.closed then Except.ok none
  else
    match m.tokens with
    | [] => Except.ok none
    | _ :: _ => Except.error ()

/-- The market-resolution rule as the specification words it (spec section 4.5
and section 8): the label of the token whose price equals 1.0 exactly, else the
label of the first token in stable order whose price exceeds 0.95, else none.
Stated on the token list, to be compared with the code. -/
def specResolvedOutcome (tokens : List Token) : Option String :=
  match tokens.find? (fun t => decide (t.price = some 1)) with
  | some t => some t.outcome
  | none =>
    match tokens.find?
        (fun t => match t.price with
          | some p => decide ((0.95 : ℚ) < p)
          | none => false) with
    | some t => some t.outcome
    | none => none

/-- Python str slicing s[:n] (used for event_name truncation), by characters. -/
def pyTake (s : String) (n : Nat) : String := ⟨s.data.take n⟩

/-- True when the pattern list is a leading segment of the second list. -/
def charsLeading : List Char → List Char → Bool
  | [], _ => true
  | _ :: _, [] => false
  | c :: cs, d :: ds => c == d && charsLeading cs ds

/-- Python substring containment (pat in s) on character lists. -/
def charsContains (pat : List Char) : List Char → Bool
  | [] => charsLeading pat []
  | c :: t => charsLeading pat (c :: t) || charsContains pat t

/-- Python substring containment for strings. -/
def strContains (s pat : String) : Bool := charsContains pat.data s.data

/-- Python str.startswith. -/
def strStartsWith (s pat : String) : Bool := charsLeading pat.data s.data

/-- Helper for strReplace, structural on an explicit fuel argument so that
concrete instances reduce in the kernel. -/
def charsReplaceAux (pat rep : List Char) : Nat → List Char → List Char
  | 0, l => l
  | _ + 1, [] => []
  | fuel + 1, c :: t =>
    if pat ≠ [] && charsLeading pat (c :: t) then
      rep ++ charsReplaceAux pat rep fuel (List.drop (pat.length - 1) t)
    else c :: charsReplaceAux pat rep fuel t

/-- Python str.replace for a non-empty pattern: every occurrence replaced,
scanning left to right. -/
def strReplace (s pat rep : String) : String :=
  ⟨charsReplaceAux pat.data rep.data s.data.length s.data⟩

/-- FeatureExtractor.SPORT_KEYWORDS (src/predictor.py), in dict insertion
order. -/
def SPORT_KEYWORDS : List (String × List String) :=
  [("nba", ["nba", "basketball", "lakers", "celtics", "warriors", "bulls"]),
   ("nfl", ["nfl", "football", "chiefs", "eagles", "cowboys", "patriots"]),
   ("mlb", ["mlb", "baseball", "yankees", "dodgers", "red sox", "cubs"]),
   ("nhl", ["nhl", "hockey", "bruins", "rangers", "penguins", "maple leafs"]),
   ("mma", ["ufc", "mma", "fight", "bellator"]),
   ("soccer", ["soccer", "mls", "premier league", "la liga"])]

/-- FeatureExtractor._detect_sport: first sport, in table order, one of whose
keywords occurs in the lowercased question text; "other" when none matches. -/
def detect_sport (text : String) : String :=
  let tl := pyLower text
  match SPORT_KEYWORDS.find? (fun sk => sk.2.any (fun kw => strContains tl kw)) with
  | some sk => sk.1
  | none => "other"

/-- The feature dictionary built by FeatureExtractor.extract_features. -/
structure Features where
  market_id : String
  question : String
  sport : String
  home_yes_price : ℚ
  away_yes_price : ℚ
  price_spread : ℚ
  is_home_favorite : Bool
  market_edge : ℚ
  home_wins : ℚ
  home_losses : ℚ
  away_wins : ℚ
  away_losses : ℚ
  home_win_pct : ℚ
  away_win_pct : ℚ
  win_pct_diff : ℚ
deriving DecidableEq, Repr

/-- One step of the yes/no price scan of FeatureExtractor.extract_features:
a token with a present price and an outcome lowercasing to "yes" overwrites
the yes price, likewise "no" for the no price. -/
def priceStep (prices : ℚ × ℚ) (t : Token) : ℚ × ℚ :=
  match t.price with
  | none => prices
  | some p =>
    if pyLower t.outcome = "yes" then (p, prices.2)
    else if pyLower t.outcome = "no" then (prices.1, p)
    else prices

/-- The yes/no price scan of FeatureExtractor.extract_features: both prices
start at 0.5 and are overwritten by matching tokens in sequence (the last
matching token wins, as in the Python loop). -/
def tokenPrices (tokens : List Token) : ℚ × ℚ :=
  tokens.foldl priceStep (0.5, 0.5)

/-- The raw yes-price of a market token list (0.5 when no token carries a
yes price). -/
def yesPriceOf (tokens : List Token) : ℚ := (tokenPrices tokens).1

/-- FeatureExtractor.extract_features (src/predictor.py, lines 147-199). -/
def extract_features (m : Market) : Features :=
  let sport := detect_sport m.question
  let prices := tokenPrices m.tokens
  let yes_price := prices.1
  let no_price := prices.2
  { market_id := m.condition_id
    question := m.question
    sport := sport
    home_yes_price := yes_price
    away_yes_price := no_price
    price_spread := |yes_price - no_price|
    is_home_favorite := decide (no_price < yes_price)
    market_edge := yes_price - 0.5
    home_wins := 0
    home_losses := 0
    away_wins := 0
    away_losses := 0
    home_win_pct := 0.5
    away_win_pct := 0.5
    win_pct_diff := 0 }

/-- The per-name value of FeatureExtractor.to_model_input: sport one-hot
columns from the "sport_" names; numeric and boolean features by name; the
three string-valued dictionary entries make the Python float() conversion
raise, embedded as Except.error; unknown names give 0.0. -/
def featureValue (f : Features) (name : String) : Except Unit ℚ :=
  if strStartsWith name "sport_" then
    Except.ok (if f.sport = strReplace name "sport_" "" then 1 else 0)
  else
    match name with
    | "market_id" => Except.error ()
    | "question" => Except.error ()
    | "sport" => Except.error ()
    | "home_yes_price" => Except.ok f.home_yes_price
    | "away_yes_price" => Except.ok f.away_yes_price
    | "price_spread" => Except.ok f.price_spread
    | "is_home_favorite" => Except.ok (if f.is_home_favorite then 1 else 0)
    | "market_edge" => Except.ok f.market_edge
    | "home_wins" => Except.ok f.home_wins
    | "home_losses" => Except.ok f.home_losses
    | "away_wins" => Except.ok f.away_wins
    | "away_losses" => Except.ok f.away_losses
    | "home_win_pct" => Except.ok f.home_win_pct
    | "away_win_pct" => Except.ok f.away_win_pct
    | "win_pct_diff" => Except.ok f.win_pct_diff
    | _ => Except.ok 0

/-- FeatureExtractor.to_model_input: project the feature dictionary through
the ordered schema. -/
def to_model_input (f : Features) (names : List String) : Except Unit (List ℚ) :=
  names.mapM (featureValue f)

/-- The model fields of predictor.ModelLoader that predict_market consults.
A loaded artifact is a function from the model-input vector to Except Unit Q;
a model call that raises is a function returning Except.error. The scaler
parameters are opaque to the pipeline logic. -/
structure ModelState where
  historical_model : Option (List ℚ → Except Unit ℚ)
  sentiment_model : Option (List ℚ → Except Unit ℚ)
  meta_learner : Option (List ℚ → Except Unit ℚ)
  feature_names : Option (List String)
  scaler_params : Option Unit
  use_tf : Bool

/-- Python truthiness of the feature_names field: None and the empty list are
falsy. -/
def truthyNames : Option (List String) → Bool
  | none => false
  | some l => !l.isEmpty

/-- One stage of SportsPredictor.predict_market: the confidence starts at 0.5
and is overwritten by the model output when the model and a truthy schema are
present and neither the input projection nor the model call raises (the
TensorFlow and sklearn call shapes of the sentiment stage are semantically the
same call in this embedding). -/
def stageConf (model? : Option (List ℚ → Except Unit ℚ))
    (names? : Option (List String)) (feats : Features) : ℚ :=
  match model? with
  | none => 0.5
  | some f =>
    if truthyNames names? then
      match to_model_input feats (names?.getD []) >>= f with
      | Except.ok p => p
      | Except.error _ => 0.5
    else 0.5

/-- The hybrid stage of SportsPredictor.predict_market: if a meta-learner is
loaded, classify the 6-feature meta vector, falling back to the plain average
of the two stage confidences when that call raises; with no meta-learner the
hybrid confidence is the own yes-price of the market. -/
def hybridConf (models : ModelState) (feats : Features) (hist sent : ℚ) : ℚ :=
  match models.meta_learner with
  | some g =>
    match g [hist, sent, hist - sent, (hist + sent) / 2,
             |hist - 0.5|, |sent - 0.5|] with
    | Except.ok p => p
    | Except.error _ => (hist + sent) / 2
  | none => feats.home_yes_price

/-- The predicted label of SportsPredictor.predict_market. -/
def predictedLabel (hyb : ℚ) : String :=
  if (0.5 : ℚ) < hyb then "Yes" else "No"

/-- SportsPredictor.predict_market (src/predictor.py, lines 291-364). -/
def predict_market (models : ModelState) (m : Market) : Option Prediction :=
  let features := extract_features m
  if features.sport = "other" then none
  else
    let hist_conf := stageConf models.historical_model models.feature_names features
    let sent_conf := stageConf models.sentiment_model models.feature_names features
    let hybrid_conf := hybridConf models features hist_conf sent_conf
    some { id := none
           market_id := m.condition_id
           sport := features.sport
           event_name := pyTake m.question 200
           predicted_outcome := predictedLabel hybrid_conf
           historical_confidence := hist_conf
           sentiment_confidence := sent_conf
           hybrid_confidence := hybrid_conf
           actual_outcome := none
           is_correct := none
           created_at := none
           resolved_at := none }

/-- How the schema load of ModelLoader.load_all can fail: the missing-file
exception is the only kind its handler catches; any other exception from the
open or the JSON parse is of the second kind. -/
inductive SchemaLoadErr
  | fileNotFound
  | otherFailure
deriving DecidableEq, Repr

/-- The outcomes of the individual artifact loads attempted by
ModelLoader.load_all. -/
structure LoadEnv where
  schema_load : Except SchemaLoadErr (List String)
  historical_load : Except Unit (List ℚ → Except Unit ℚ)
  sentiment_load_tf : Except Unit (List ℚ → Except Unit ℚ)
  sentiment_load_joblib : Except Unit (List ℚ → Except Unit ℚ)
  meta_load : Except Unit (List ℚ → Except Unit ℚ)

/-- Boolean success of an Except value. -/
def exOk {ε α : Type} : Except ε α → Bool
  | Except.ok _ => true
  | Except.error _ => false

/-- ModelLoader.load_all (src/predictor.py, lines 56-119): the schema load is
guarded by an except clause that catches only the missing-file failure, so any
other schema-load failure escapes; the historical, sentiment (TensorFlow
format first, then the joblib format) and meta-learner loads each catch every
failure; the returned flag is set exactly by a successful historical or
sentiment load. -/
def load_all (env : LoadEnv) : Except Unit (ModelState × Bool) :=
  let schemaPart : Except Unit (Option (List String) × Option Unit) :=
    match env.schema_load with
    | Except.ok ns => Except.ok (some ns, some ())
    | Except.error SchemaLoadErr.fileNotFound => Except.ok (some [], none)
    | Except.error SchemaLoadErr.otherFailure => Except.error ()
  match schemaPart with
  | Except.error e => Except.error e
  | Except.ok (names, scaler) =>
    let histPair :=
      match env.historical_load with
      | Except.ok f => (some f, true)
      | Except.error _ => ((none : Option (List ℚ → Except Unit ℚ)), false)
    let sentTriple :=
      match env.sentiment_load_tf with
      | Except.ok f => (some f, true, true)
      | Except.error _ =>
        match env.sentiment_load_joblib with
        | Except.ok f => (some f, false, true)
        | Except.error _ => ((none : Option (List ℚ → Except Unit ℚ)), false, false)
    let metam :=
      match env.meta_load with
      | Except.ok g => some g
      | Except.error _ => none
    Except.ok
      ({ historical_model := histPair.1
         sentiment_model := sentTriple.1
         meta_learner := metam
         feature_names := names
         scaler_params := scaler
         use_tf := sentTriple.2.1 },
       histPair.2 || sentTriple.2.2)

/-- The resolution update SupabaseClient._resolve_prediction_local applies to
a stored record: set the actual outcome, the case-insensitive correctness flag
and the resolution timestamp. -/
def applyResolve (p : Prediction) (actual now : String) : Prediction :=
  { p with
    actual_outcome := some actual
    is_correct := some (decide (pyLower p.predicted_outcome = pyLower actual))
    resolved_at := some now }

/-- SupabaseClient._resolve_prediction_local over a parsed store: update the
first record whose id matches and return the new store together with the
updated record, or the unchanged store and none when no record matches. -/
def updateById (now actual : String) (pid : Option String) :
    List Prediction → List Prediction × Option Prediction
  | [] => ([], none)
  | q :: rest =>
    if q.id = pid then
      (applyResolve q actual now :: rest, some (applyResolve q actual now))
    else
      let r := updateById now actual pid rest
      (q :: r.1, r.2)

/-- The per-record filter of SupabaseClient._get_predictions_local: a record
is skipped when a truthy sport filter differs from its sport, or when only
resolved records are requested and its actual outcome is falsy. -/
def predPass (sport : Option String) (onlyResolved : Bool) (p : Prediction) :
    Bool :=
  (if truthyStr sport then decide (p.sport = sport.getD "") else true) &&
  (if onlyResolved then truthyStr p.actual_outcome else true)

/-- The collection loop of SupabaseClient._get_predictions_local: passing
records are appended in store order, and the loop stops as soon as the length
test that runs after an append reaches the limit. -/
def collectPreds (pass : Prediction → Bool) (limit : Nat) :
    List Prediction → Nat → List Prediction
  | [], _ => []
  | p :: rest, cnt =>
    if pass p then
      if limit ≤ cnt + 1 then [p]
      else p :: collectPreds pass limit rest (cnt + 1)
    else collectPreds pass limit rest cnt

/-- SupabaseClient._get_predictions_local on a parsed store. -/
def get_predictions_local (db : List Prediction) (limit : Nat)
    (sport : Option String) (onlyResolved : Bool) : List Prediction :=
  collectPreds (predPass sport onlyResolved) limit db 0

/-- The result counters of PredictionScorer.score_pending_predictions. -/
structure ScoreCounters where
  total : Nat
  scored : Nat
  correct : Nat
  wrong : Nat
  still_pending : Nat
deriving DecidableEq, Repr

/-- The market dictionary of score_pending_predictions, keyed by condition id;
a later market with the same id overwrites an earlier one, as in the Python
dict comprehension. -/
def marketLookup (markets : List Market) (mid : String) : Option Market :=
  markets.reverse.find? (fun m => m.condition_id == mid)

/-- PredictionScorer.score_prediction: resolve through the persistence
collaborator and fall back to the unchanged prediction when the resolver
returns nothing. The resolver argument stands for
SupabaseClient.resolve_prediction acting on the store; its local file-backed
implementation can raise (an unreadable store or a failed store write), which
the Except models. -/
def score_prediction
    (resolveF : List Prediction → Option String → String →
      Except Unit (List Prediction × Option Prediction))
    (db : List Prediction) (p : Prediction) (actual : String) :
    Except Unit (List Prediction × Prediction) :=
  match resolveF db p.id actual with
  | Except.error e => Except.error e
  | Except.ok r => Except.ok (r.1, r.2.getD p)

/-- The per-prediction loop of PredictionScorer.score_pending_predictions
(src/scorer.py, lines 180-203): a prediction whose market is missing from the
batch, or whose market is not resolved, counts still_pending; otherwise it is
scored through score_prediction, with no exception handler around the body,
and counted correct or wrong by the truthiness of the resolved is_correct
flag. -/
def scoreLoop
    (resolveF : List Prediction → Option String → String →
      Except Unit (List Prediction × Option Prediction))
    (lookup : String → Option Market) :
    List Prediction → List Prediction → ScoreCounters →
    Except Unit (List Prediction × ScoreCounters)
  | [], db, c => Except.ok (db, c)
  | p :: rest, db, c =>
    match lookup p.market_id with
    | none =>
      scoreLoop resolveF lookup rest db
        { c with still_pending := c.still_pending + 1 }
    | some mkt =>
      match get_market_outcome mkt with
      | none =>
        scoreLoop resolveF lookup rest db
          { c with still_pending := c.still_pending + 1 }
      | some outcome =>
        match score_prediction resolveF db p outcome with
        | Except.error e => Except.error e
        | Except.ok r =>
          let c1 := { c with scored := c.scored + 1 }
          let c2 :=
            if truthyBool r.2.is_correct then
              { c1 with correct := c1.correct + 1 }
            else
              { c1 with wrong := c1.wrong + 1 }
          scoreLoop resolveF lookup rest r.1 c2

/-- The local-store resolver on an in-memory parsed store, the case where the
store file is present and readable: SupabaseClient._resolve_prediction_local
never raises then. -/
def localResolve (now : String) (db : List Prediction) (pid : Option String)
    (actual : String) : Except Unit (List Prediction × Option Prediction) :=
  Except.ok (updateById now actual pid db)

/-- The per-prediction loop of PredictionScorer.score_pending_predictions with
the attribute-faithful market-outcome step: it differs from scoreLoop only in
consulting get_market_outcome_py, so the AttributeError that call raises for a
closed market with tokens, like any resolver failure, propagates out of the
loop body, which has no exception handler, and ends the whole batch. -/
def scoreLoop_py
    (resolveF : List Prediction → Option String → String →
      Except Unit (List Prediction × Option Prediction))
    (lookup : String → Option Market) :
    List Prediction → List Prediction → ScoreCounters →
    Except Unit (List Prediction × ScoreCounters)
  | [], db, c => Except.ok (db, c)
  | p :: rest, db, c =>
    match lookup p.market_id with
    | none =>
      scoreLoop_py resolveF lookup rest db
        { c with still_pending := c.still_pending + 1 }
    | some mkt =>
      match get_market_outcome_py mkt with
      | Except.error e => Except.error e
      | Except.ok none =>
        scoreLoop_py resolveF lookup rest db
          { c with still_pending := c.still_pending + 1 }
      | Except.ok (some outcome) =>
        match score_prediction resolveF db p outcome with
        | Except.error e => Except.error e
        | Except.ok r =>
          let c1 := { c with scored := c.scored + 1 }
          let c2 :=
            if truthyBool r.2.is_correct then
              { c1 with correct := c1.correct + 1 }
            else
              { c1 with wrong := c1.wrong + 1 }
          scoreLoop_py resolveF lookup rest r.1 c2

/-- PredictionScorer.score_pending_predictions (src/scorer.py, lines 125-203)
over the local store: fetch up to limit records, keep the pending ones (actual
outcome exactly null), return zero counters immediately when none are pending,
else run the scoring loop against the fetched market batch. -/
def score_pending_predictions (db : List Prediction) (markets : List Market)
    (sport : Option String) (limit : Nat) (now : String) :
    Except Unit (List Prediction × ScoreCounters) :=
  let fetched := get_predictions_local db limit sport false
  let pending := fetched.filter (fun p => p.actual_outcome.isNone)
  if pending.isEmpty then
    Except.ok (db, ⟨0, 0, 0, 0, 0⟩)
  else
    scoreLoop (localResolve now) (marketLookup markets) pending db
      ⟨pending.length, 0, 0, 0, 0⟩

/-- The stage-confidence selector of PredictionScorer.update_metrics. -/
def confOfStage (model_type : String) (p : Prediction) : ℚ :=
  if model_type = "historical" then p.historical_confidence
  else if model_type = "sentiment" then p.sentiment_confidence
  else p.hybrid_confidence

/-- One step of the per-stage counting pass of PredictionScorer.update_metrics:
a record with a truthy actual outcome counts toward the total, and toward
correct when the label implied by the stage confidence (Yes above 0.5, else No)
equals the actual outcome case-insensitively. -/
def stageStep (get_conf : Prediction → ℚ) (tc : Nat × Nat) (p : Prediction) :
    Nat × Nat :=
  let model_prediction := if (0.5 : ℚ) < get_conf p then "Yes" else "No"
  if truthyStr p.actual_outcome then
    if pyLower model_prediction = pyLower (p.actual_outcome.getD "") then
      (tc.1 + 1, tc.2 + 1)
    else (tc.1 + 1, tc.2)
  else tc

/-- The total and correct counters a stage accumulates across the resolved
records in PredictionScorer.update_metrics. -/
def stageCounts (get_conf : Prediction → ℚ) (resolved : List Prediction) :
    Nat × Nat :=
  resolved.foldl (stageStep get_conf) (0, 0)

/-- PredictionScorer.update_metrics (src/scorer.py, lines 205-263): the
metrics dictionary it computes and returns, one entry per stage with that
standalone counts of that stage over the resolved records fetched from the store;
empty when no resolved records exist. -/
def update_metrics (db : List Prediction) : List (String × ModelMetrics) :=
  let resolved := get_predictions_local db 1000 none true
  if resolved.isEmpty then []
  else
    ["historical", "sentiment", "hybrid"].map (fun mt =>
      let tc := stageCounts (confOfStage mt) resolved
      (mt,
       { model_type := mt
         accuracy_7d := if 0 < tc.1 then (tc.2 : ℚ) / tc.1 else 0
         accuracy_30d := if 0 < tc.1 then (tc.2 : ℚ) / tc.1 else 0
         total_predictions := tc.1
         correct_predictions := tc.2
         updated_at := none }))

/-- SupabaseClient.update_model_metrics (src/tools/supabase_client.py, lines
353-394): the metrics row persisted for a stage name, recomputed over all
resolved records from their stored is_correct flags; the stage name only
labels the row. None when no resolved records exist. -/
def update_model_metrics (db : List Prediction) (model_type : String)
    (now : String) : Option ModelMetrics :=
  let predictions := get_predictions_local db 1000 none true
  if predictions.isEmpty then none
  else
    let total := predictions.length
    let correct := (predictions.filter (fun p => truthyBool p.is_correct)).length
    some
      { model_type := model_type
        accuracy_7d := if 0 < total then (correct : ℚ) / total else 0
        accuracy_30d := if 0 < total then (correct : ℚ) / total else 0
        total_predictions := total
        correct_predictions := correct
        updated_at := some now }

/-- The standalone per-stage counting exactly as the specification words it:
over the resolved records with a recorded actual outcome, count those whose
stage-implied label (Yes when the stage confidence exceeds 0.5, else No)
matches the actual outcome case-insensitively. -/
def specStandaloneTotal (resolved : List Prediction) : Nat :=
  (resolved.filter (fun p => truthyStr p.actual_outcome)).length

/-- The correct count of the standalone per-stage accuracy of the spec. -/
def specStandaloneCorrect (get_conf : Prediction → ℚ)
    (resolved : List Prediction) : Nat :=
  (resolved.filter (fun p =>
    truthyStr p.actual_outcome &&
    decide (pyLower (if (0.5 : ℚ) < get_conf p then "Yes" else "No")
      = pyLower (p.actual_outcome.getD "")))).length

/-- The per-market loop of SportsPredictor.predict_current_markets
(src/predictor.py, lines 401-412): each market is handled inside a try block,
so a failing market is logged and skipped and the loop continues; a market
handled successfully contributes its optional prediction. The step argument
stands for the loop body, predict_market together with whatever it raises. -/
def predictLoop (step : Market → Except Unit (Option Prediction)) :
    List Market → List Prediction
  | [] => []
  | m :: rest =>
    match step m with
    | Except.ok (some p) => p :: predictLoop step rest
    | Except.ok none => predictLoop step rest
    | Except.error _ => predictLoop step rest

/-- SportsPredictor.predict_current_markets: filter to markets accepting
orders, optionally filter by detected sport, cap the batch, and run the
guarded per-market loop with predict_market as the body. -/
def predict_current_markets (models : ModelState) (markets : List Market)
    (sport : Option String) (max_markets : Nat) : List Prediction :=
  let active := markets.filter (fun m => m.accepting_orders)
  let filtered :=
    if truthyStr sport then
      active.filter (fun m => detect_sport m.question == pyLower (sport.getD ""))
    else active
  predictLoop (fun m => Except.ok (predict_market models m))
    (filtered.take max_markets)

end SportsPicker

namespace SportsPicker

/-- The first resolution example of the spec as a closed market: token Yes
priced exactly 1.0, token No priced 0.0. -/
def mEx1 : Market :=
  { condition_id := "c1", question := "q", closed := true, active := false,
    accepting_orders := false,
    tokens := [{ token_id := "t1", outcome := "Yes", price := some 1 },
               { token_id := "t2", outcome := "No", price := some 0 }] }

/-- The second resolution example of the spec as a closed market: token Yes
priced 0.97, token No priced 0.03. -/
def mEx2 : Market :=
  { condition_id := "c2", question := "q", closed := true, active := false,
    accepting_orders := false,
    tokens := [{ token_id := "t1", outcome := "Yes", price := some 0.97 },
               { token_id := "t2", outcome := "No", price := some 0.03 }] }

/-- The third resolution example of the spec as a closed market: tokens
priced 0.6 and 0.4, neither qualifying. -/
def mEx3 : Market :=
  { condition_id := "c3", question := "q", closed := true, active := false,
    accepting_orders := false,
    tokens := [{ token_id := "t1", outcome := "", price := some 0.6 },
               { token_id := "t2", outcome := "", price := some 0.4 }] }

/-- C1: the claimed resolution rule is the documented intent (on the three
example token lists of the claim the spec rule yields Yes, Yes and none), but
the code raises on every one of them: get_market_outcome reads the tokens
dict-style via token.get although Market.tokens holds pydantic Token objects,
so each closed example market raises AttributeError instead of resolving, and
the label-returning branches the claim describes are unreachable. -/
theorem getMarketOutcome_attributeError :
    get_market_outcome_py mEx1 = Except.error () ∧
    get_market_outcome_py mEx2 = Except.error () ∧
    get_market_outcome_py mEx3 = Except.error () ∧
    specResolvedOutcome mEx1.tokens = some "Yes" ∧
    specResolvedOutcome mEx2.tokens = some "Yes" ∧
    specResolvedOutcome mEx3.tokens = none := by
  refine ⟨rfl, rfl, rfl, ?_, ?_, ?_⟩ <;> with_unfolding_all rfl

/-- C9: a market whose closed flag is false is never resolved by
get_market_outcome, whatever its token prices are. -/
theorem getMarketOutcome_open_market_none (m : Market)
    (h : m.closed = false) : get_market_outcome m = none := by
  unfold get_market_outcome
  rw [h]
  simp

/-- Witness for C9: an open market holding a token priced exactly 1.0 is still
reported unresolved. -/
theorem getMarketOutcome_open_market_none_witness :
    get_market_outcome
        { condition_id := "c9", question := "q", closed := false,
          active := true, accepting_orders := true,
          tokens := [{ token_id := "t1", outcome := "Yes", price := some 1 }] }
      = none :=
  getMarketOutcome_open_market_none _ rfl

/-- The four fields of a prediction emitted by predict_market that the ensemble
computes: the two stage confidences, the hybrid confidence and the label. -/
lemma predict_market_fields {st : ModelState} {m : Market} {p : Prediction}
    (h : predict_market st m = some p) :
    p.historical_confidence
        = stageConf st.historical_model st.feature_names (extract_features m) ∧
    p.sentiment_confidence
        = stageConf st.sentiment_model st.feature_names (extract_features m) ∧
    p.hybrid_confidence
        = hybridConf st (extract_features m)
            p.historical_confidence p.sentiment_confidence ∧
    p.predicted_outcome = predictedLabel p.hybrid_confidence := by
  unfold predict_market at h
  by_cases hs : (extract_features m).sport = "other"
  · rw [if_pos hs] at h
    exact absurd h (by simp)
  · rw [if_neg hs] at h
    injection h with h
    subst h
    exact ⟨rfl, rfl, rfl, rfl⟩

/-- C7: the label emitted by predict_market is Yes exactly when the hybrid
confidence exceeds 0.5, and a tie at exactly 0.5 resolves to No. -/
theorem predictMarket_label_rule (st : ModelState) (m : Market) (p : Prediction)
    (h : predict_market st m = some p) :
    (p.predicted_outcome = "Yes" ↔ (0.5 : ℚ) < p.hybrid_confidence) ∧
    (p.hybrid_confidence = 0.5 → p.predicted_outcome = "No") := by
  obtain ⟨-, -, -, hl⟩ := predict_market_fields h
  constructor
  · rw [hl]
    unfold predictedLabel
    by_cases hc : (0.5 : ℚ) < p.hybrid_confidence
    · simp [hc]
    · rw [if_neg hc]
      constructor
      · intro hno
        exact absurd hno (by decide)
      · intro hlt
        exact absurd hlt hc
  · intro he
    rw [hl, he]
    unfold predictedLabel
    rw [if_neg (lt_irrefl _)]

/-- The all-absent model state (nothing loaded, no schema). -/
def stNone : ModelState :=
  { historical_model := none, sentiment_model := none, meta_learner := none,
    feature_names := none, scaler_params := none, use_tf := false }

/-- A concrete sports market with no priced tokens. -/
def mC7 : Market :=
  { condition_id := "m7", question := "nba game tonight", tokens := [],
    active := true, closed := false, accepting_orders := true }

/-- The prediction predict_market emits for mC7 under stNone. -/
def predC7 : Prediction :=
  { id := none, market_id := "m7", sport := "nba",
    event_name := "nba game tonight", predicted_outcome := "No",
    historical_confidence := 0.5, sentiment_confidence := 0.5,
    hybrid_confidence := 0.5, actual_outcome := none, is_correct := none,
    created_at := none, resolved_at := none }

/-- Witness for C7 at a concrete tie: with no models loaded and no yes-price,
the hybrid confidence is exactly 0.5 and the emitted label is No. -/
theorem predictMarket_label_rule_witness :
    predict_market stNone mC7 = some predC7 ∧ predC7.predicted_outcome = "No" :=
  ⟨by with_unfolding_all rfl,
   (predictMarket_label_rule stNone mC7 predC7 (by with_unfolding_all rfl)).2
     (by with_unfolding_all rfl)⟩

/-- The first component of the price scan is untouched by a token list holding
no token that lowercases to "yes" with a present price. -/
lemma foldl_priceStep_fst (tokens : List Token) :
    ∀ acc : ℚ × ℚ,
      (∀ t ∈ tokens, pyLower t.outcome ≠ "yes" ∨ t.price = none) →
      (tokens.foldl priceStep acc).1 = acc.1 := by
  induction tokens with
  | nil =>
    intro acc _
    rfl
  | cons t ts ih =>
    intro acc h
    rw [List.foldl_cons]
    have hstep : (priceStep acc t).1 = acc.1 := by
      rcases h t (List.mem_cons_self t ts) with hy | hp
      · unfold priceStep
        cases hpr : t.price with
        | none => rfl
        | some p =>
          dsimp only
          rw [if_neg hy]
          by_cases hn : pyLower t.outcome = "no"
          · rw [if_pos hn]
          · rw [if_neg hn]
      · unfold priceStep
        rw [hp]
    rw [ih _ (fun u hu => h u (List.mem_cons_of_mem _ hu)), hstep]

/-- A token list with no usable yes-token yields the default yes-price 0.5. -/
lemma yesPriceOf_default (tokens : List Token)
    (h : ∀ t ∈ tokens, pyLower t.outcome ≠ "yes" ∨ t.price = none) :
    yesPriceOf tokens = 0.5 :=
  foldl_priceStep_fst tokens (0.5, 0.5) h

/-- C5: with no historical model, no sentiment model and no meta-learner
loaded, the hybrid confidence of every emitted prediction equals the raw
yes-price of the market, which is 0.5 when no token carries a yes price. -/
theorem predictMarket_degrade_to_market_price (st : ModelState) (m : Market)
    (p : Prediction)
    (h1 : st.historical_model = none) (h2 : st.sentiment_model = none)
    (h3 : st.meta_learner = none) (h : predict_market st m = some p) :
    p.hybrid_confidence = yesPriceOf m.tokens ∧
    ((∀ t ∈ m.tokens, pyLower t.outcome ≠ "yes" ∨ t.price = none) →
      p.hybrid_confidence = 0.5) := by
  obtain ⟨-, -, hh, -⟩ := predict_market_fields h
  have hy : p.hybrid_confidence = yesPriceOf m.tokens := by
    rw [hh]
    unfold hybridConf
    rw [h3]
    rfl
  exact ⟨hy, fun hnone => hy.trans (yesPriceOf_default m.tokens hnone)⟩

/-- Witness for C5: under stNone, the market mC7 with no priced tokens gets
hybrid confidence equal to its raw yes-price, namely the default 0.5. -/
theorem predictMarket_degrade_to_market_price_witness :
    predC7.hybrid_confidence = yesPriceOf mC7.tokens ∧
    predC7.hybrid_confidence = 0.5 :=
  ⟨(predictMarket_degrade_to_market_price stNone mC7 predC7 rfl rfl rfl
      (by with_unfolding_all rfl)).1,
   (predictMarket_degrade_to_market_price stNone mC7 predC7 rfl rfl rfl
      (by with_unfolding_all rfl)).2 (by intro t ht; cases ht)⟩

/-- A loaded historical artifact that predicts 0.9 on every input. -/
def histModelC : List ℚ → Except Unit ℚ := fun _ => Except.ok 0.9

/-- A model state with only the historical model (and a usable schema)
loaded: no sentiment model, no meta-learner. -/
def stC2 : ModelState :=
  { historical_model := some histModelC, sentiment_model := none,
    meta_learner := none, feature_names := some ["home_yes_price"],
    scaler_params := none, use_tf := false }

/-- A concrete sports market whose yes-token is priced 0.2. -/
def mC2 : Market :=
  { condition_id := "m2", question := "nba game",
    tokens := [{ token_id := "y", outcome := "Yes", price := some 0.2 }],
    active := true, closed := false, accepting_orders := true }

/-- The prediction predict_market emits for mC2 under stC2: the historical
stage says 0.9, yet the hybrid confidence is the market price 0.2. -/
def predC2 : Prediction :=
  { id := none, market_id := "m2", sport := "nba", event_name := "nba game",
    predicted_outcome := "No", historical_confidence := 0.9,
    sentiment_confidence := 0.5, hybrid_confidence := 0.2,
    actual_outcome := none, is_correct := none, created_at := none,
    resolved_at := none }

/-- Counterexample to C2: with no meta-learner but the historical stage model
loaded and predicting 0.9, the emitted hybrid confidence is the market
yes-price 0.2 and not the claimed default-weight average
0.5 times 0.9 plus 0.5 times 0.5 = 0.7. -/
theorem predictMarket_weighted_average_refuted :
    predict_market stC2 mC2 = some predC2 ∧
    stC2.meta_learner.isNone = true ∧
    stC2.historical_model.isSome = true ∧
    predC2.hybrid_confidence ≠
      0.5 * predC2.historical_confidence
        + (1 - 0.5) * predC2.sentiment_confidence := by
  refine ⟨by with_unfolding_all rfl, rfl, rfl, by with_unfolding_all decide⟩

/-- C2 amended: when no meta-learner is loaded, the hybrid confidence of every
emitted prediction equals the raw yes-price of the market, whatever stage models
are loaded; the equal-weight average of the two stage confidences is used only
when a meta-learner is loaded and its classification call raises. -/
theorem predictMarket_no_meta_uses_market_price (st : ModelState) (m : Market)
    (p : Prediction) (h : predict_market st m = some p) :
    (st.meta_learner = none → p.hybrid_confidence = yesPriceOf m.tokens) ∧
    (∀ g, st.meta_learner = some g → (∀ x, g x = Except.error ()) →
      p.hybrid_confidence
        = (p.historical_confidence + p.sentiment_confidence) / 2) := by
  obtain ⟨hh, hs, hy, -⟩ := predict_market_fields h
  constructor
  · intro h3
    rw [hy]
    unfold hybridConf
    rw [h3]
    rfl
  · intro g hg hge
    rw [hy]
    unfold hybridConf
    rw [hg]
    dsimp only
    rw [hge]

/-- Witness for the amended C2, applying it to the concrete state stC2 and
market mC2: hybrid confidence 0.2 equals the raw yes-price of mC2. -/
theorem predictMarket_no_meta_uses_market_price_witness :
    predC2.hybrid_confidence = yesPriceOf mC2.tokens :=
  (predictMarket_no_meta_uses_market_price stC2 mC2 predC2
    (by with_unfolding_all rfl)).1 rfl

/-- A loaded artifact that predicts 0.5 on every input. -/
def modelFnHalf : List ℚ → Except Unit ℚ := fun _ => Except.ok 0.5

/-- A load environment whose schema load fails with a failure other than a
missing file (for example a malformed JSON artifact), while the historical
model load succeeds. -/
def envC8 : LoadEnv :=
  { schema_load := Except.error SchemaLoadErr.otherFailure,
    historical_load := Except.ok modelFnHalf,
    sentiment_load_tf := Except.error (),
    sentiment_load_joblib := Except.error (),
    meta_load := Except.error () }

/-- Counterexample to C8: a schema-load failure that is not a missing file
escapes load_all even though the historical load succeeded, so load_all does
not return a boolean at all on this input. -/
theorem load_all_raises_on_schema_failure :
    load_all envC8 = Except.error () ∧ exOk envC8.historical_load = true :=
  ⟨rfl, rfl⟩

/-- C8 amended: load_all returns normally exactly when the schema load does
not fail with a non-missing-file failure, and whenever it returns, the
returned flag is true exactly when the historical load or one of the two
sentiment loads succeeded; the schema and meta-learner loads never influence
the flag. -/
theorem load_all_flag_rule (env : LoadEnv) :
    (∀ st b, load_all env = Except.ok (st, b) →
      (b = true ↔
        (exOk env.historical_load || exOk env.sentiment_load_tf
          || exOk env.sentiment_load_joblib) = true)) ∧
    (exOk (load_all env) = false ↔
      env.schema_load = Except.error SchemaLoadErr.otherFailure) := by
  obtain ⟨sc, hl, stf, sjl, ml⟩ := env
  constructor
  · intro st b hb
    cases sc with
    | ok ns =>
      cases hl <;> cases stf <;> cases sjl <;>
        simp [load_all, exOk] at hb ⊢ <;> simp [hb.2]
    | error e =>
      cases e with
      | fileNotFound =>
        cases hl <;> cases stf <;> cases sjl <;>
          simp [load_all, exOk] at hb ⊢ <;> simp [hb.2]
      | otherFailure =>
        exact absurd hb (by simp [load_all])
  · cases sc with
    | ok ns => simp [load_all, exOk]
    | error e => cases e <;> simp [load_all, exOk]

/-- A load environment where the schema and historical loads succeed and both
sentiment formats and the meta-learner fail. -/
def envOkC8 : LoadEnv :=
  { schema_load := Except.ok ["home_yes_price"],
    historical_load := Except.ok modelFnHalf,
    sentiment_load_tf := Except.error (),
    sentiment_load_joblib := Except.error (),
    meta_load := Except.error () }

/-- The model state load_all builds from envOkC8. -/
def stateOkC8 : ModelState :=
  { historical_model := some modelFnHalf, sentiment_model := none,
    meta_learner := none, feature_names := some ["home_yes_price"],
    scaler_params := some (), use_tf := false }

/-- Witness for the amended C8, applying it to envOkC8, where load_all
returns the flag true because the historical load succeeded. -/
theorem load_all_flag_rule_witness :
    true = true ↔
      (exOk envOkC8.historical_load || exOk envOkC8.sentiment_load_tf
        || exOk envOkC8.sentiment_load_joblib) = true :=
  (load_all_flag_rule envOkC8).1 stateOkC8 true rfl

/-- Counter bookkeeping of the scoring loop: the total field is never touched,
every processed item adds one to exactly one of scored or still_pending, and
every scored item adds one to exactly one of correct or wrong. -/
lemma scoreLoop_counters
    (rf : List Prediction → Option String → String →
      Except Unit (List Prediction × Option Prediction))
    (lk : String → Option Market) :
    ∀ (l db : List Prediction) (c : ScoreCounters) (db' : List Prediction)
      (c' : ScoreCounters),
      scoreLoop rf lk l db c = Except.ok (db', c') →
      c'.total = c.total ∧
      c'.scored + c'.still_pending = c.scored + c.still_pending + l.length ∧
      c'.scored + c.correct + c.wrong = c.scored + c'.correct + c'.wrong := by
  intro l
  induction l with
  | nil =>
    intro db c db' c' h
    unfold scoreLoop at h
    injection h with h
    injection h with h1 h2
    subst h1
    subst h2
    exact ⟨rfl, by simp, by omega⟩
  | cons p rest ih =>
    intro db c db' c' h
    unfold scoreLoop at h
    split at h
    · obtain ⟨h1, h2, h3⟩ := ih _ _ _ _ h
      dsimp only at h1 h2 h3
      simp only [List.length_cons]
      refine ⟨h1, ?_, ?_⟩ <;> omega
    · split at h
      · obtain ⟨h1, h2, h3⟩ := ih _ _ _ _ h
        dsimp only at h1 h2 h3
        simp only [List.length_cons]
        refine ⟨h1, ?_, ?_⟩ <;> omega
      · split at h
        · exact absurd h (by simp)
        · dsimp only at h
          split at h <;>
          · obtain ⟨h1, h2, h3⟩ := ih _ _ _ _ h
            dsimp only at h1 h2 h3
            simp only [List.length_cons]
            refine ⟨h1, ?_, ?_⟩ <;> omega

/-- C10: every result dictionary of score_pending_predictions satisfies
total = scored + still_pending and scored = correct + wrong. -/
theorem score_counters_conserved (db : List Prediction) (markets : List Market)
    (sport : Option String) (limit : Nat) (now : String)
    (db' : List Prediction) (c : ScoreCounters)
    (h : score_pending_predictions db markets sport limit now
      = Except.ok (db', c)) :
    c.total = c.scored + c.still_pending ∧ c.scored = c.correct + c.wrong := by
  unfold score_pending_predictions at h
  dsimp only at h
  split at h
  · injection h with h
    injection h with h1 h2
    subst h2
    exact ⟨rfl, rfl⟩
  · obtain ⟨h1, h2, h3⟩ := scoreLoop_counters _ _ _ _ _ _ _ h
    dsimp only at h1 h2 h3
    constructor <;> omega

/-- A pending prediction on market mk, stored under id A. -/
def pA : Prediction :=
  { id := some "A", market_id := "mk", sport := "nba", event_name := "a",
    predicted_outcome := "Yes", historical_confidence := 0.6,
    sentiment_confidence := 0.6, hybrid_confidence := 0.6,
    actual_outcome := none, is_correct := none, created_at := none,
    resolved_at := none }

/-- A pending prediction whose market is absent from the fetched batch. -/
def pQ : Prediction :=
  { id := some "Q", market_id := "nowhere", sport := "nba", event_name := "q",
    predicted_outcome := "No", historical_confidence := 0.4,
    sentiment_confidence := 0.4, hybrid_confidence := 0.4,
    actual_outcome := none, is_correct := none, created_at := none,
    resolved_at := none }

/-- An already-resolved prediction stored under id R. -/
def pR : Prediction :=
  { id := some "R", market_id := "mk", sport := "nba", event_name := "r",
    predicted_outcome := "Yes", historical_confidence := 0.6,
    sentiment_confidence := 0.6, hybrid_confidence := 0.6,
    actual_outcome := some "Yes", is_correct := some true,
    created_at := none, resolved_at := some "t0" }

/-- A closed market mk resolved to Yes (its yes token is priced exactly 1). -/
def mkResolved : Market :=
  { condition_id := "mk", question := "nba",
    tokens := [{ token_id := "t", outcome := "Yes", price := some 1 }],
    active := false, closed := true, accepting_orders := false }

/-- Witness for C10: a concrete scoring run over one scorable and one
market-less prediction satisfies both counter conservation laws. -/
theorem score_counters_conserved_witness :
    (⟨2, 1, 1, 0, 1⟩ : ScoreCounters).total
        = (⟨2, 1, 1, 0, 1⟩ : ScoreCounters).scored
          + (⟨2, 1, 1, 0, 1⟩ : ScoreCounters).still_pending ∧
    (⟨2, 1, 1, 0, 1⟩ : ScoreCounters).scored
        = (⟨2, 1, 1, 0, 1⟩ : ScoreCounters).correct
          + (⟨2, 1, 1, 0, 1⟩ : ScoreCounters).wrong :=
  score_counters_conserved [pA, pQ] [mkResolved] none 100 "now"
    [applyResolve pA "Yes" "now", pQ] ⟨2, 1, 1, 0, 1⟩
    (by with_unfolding_all rfl)

/-- Everything collected by the local fetch loop comes from the store. -/
lemma collectPreds_subset (pass : Prediction → Bool) (limit : Nat) :
    ∀ (l : List Prediction) (cnt : Nat) (p : Prediction),
      p ∈ collectPreds pass limit l cnt → p ∈ l := by
  intro l
  induction l with
  | nil =>
    intro cnt p h
    simp [collectPreds] at h
  | cons q rest ih =>
    intro cnt p h
    unfold collectPreds at h
    by_cases hq : pass q
    · rw [if_pos hq] at h
      by_cases hl : limit ≤ cnt + 1
      · rw [if_pos hl] at h
        simp at h
        exact h ▸ List.mem_cons_self q rest
      · rw [if_neg hl] at h
        rcases List.mem_cons.mp h with h | h
        · exact h ▸ List.mem_cons_self q rest
        · exact List.mem_cons_of_mem _ (ih _ _ h)
    · rw [if_neg hq] at h
      exact List.mem_cons_of_mem _ (ih _ _ h)

/-- The local resolution update leaves every record whose id differs from the
target id at its position. -/
lemma updateById_preserves (now actual : String) (pid : Option String) :
    ∀ (l : List Prediction) (i : Nat) (q : Prediction),
      l[i]? = some q → q.id ≠ pid →
      (updateById now actual pid l).1[i]? = some q := by
  intro l
  induction l with
  | nil =>
    intro i q h _
    simp at h
  | cons x rest ih =>
    intro i q hq hne
    unfold updateById
    by_cases hx : x.id = pid
    · rw [if_pos hx]
      dsimp only
      cases i with
      | zero =>
        simp at hq
        exact absurd (hq ▸ hx) hne
      | succ j =>
        simpa using (by simpa using hq : rest[j]? = some q)
    · rw [if_neg hx]
      dsimp only
      cases i with
      | zero =>
        simpa using hq
      | succ j =>
        simpa using ih j q (by simpa using hq) hne

/-- The scoring loop with the local resolver never moves or rewrites a stored
record whose id is hit by none of the looped predictions. -/
lemma scoreLoop_frame (now : String) (lk : String → Option Market) :
    ∀ (l db : List Prediction) (c : ScoreCounters) (db' : List Prediction)
      (c' : ScoreCounters),
      scoreLoop (localResolve now) lk l db c = Except.ok (db', c') →
      ∀ (i : Nat) (q : Prediction), db[i]? = some q →
        (∀ p ∈ l, p.id ≠ q.id) → db'[i]? = some q := by
  intro l
  induction l with
  | nil =>
    intro db c db' c' h i q hq _
    unfold scoreLoop at h
    injection h with h
    injection h with h1 h2
    subst h1
    exact hq
  | cons p rest ih =>
    intro db c db' c' h i q hq hne
    unfold scoreLoop at h
    split at h
    · exact ih _ _ _ _ h i q hq fun u hu => hne u (List.mem_cons_of_mem _ hu)
    · next mkt hmkt =>
      split at h
      · exact ih _ _ _ _ h i q hq fun u hu => hne u (List.mem_cons_of_mem _ hu)
      · next o ho =>
        split at h
        · exact absurd h (by simp)
        · next r heq =>
          unfold score_prediction localResolve at heq
          dsimp only at heq
          injection heq with heq
          dsimp only at h
          split at h <;>
          · refine ih _ _ _ _ h i q ?_
              fun u hu => hne u (List.mem_cons_of_mem _ hu)
            rw [← heq]
            exact updateById_preserves now o p.id db i q hq
              (hne p (List.mem_cons_self p rest)).symm

/-- C6: a run of score_pending_predictions leaves every already-resolved
stored record untouched at its position (under distinctness of its id from the
pending ids), and a store whose records are all already resolved is returned
unchanged with zero counters, so re-scoring resolved predictions is a no-op
and counts nothing. -/
theorem scoring_skips_resolved (db : List Prediction) (markets : List Market)
    (sport : Option String) (limit : Nat) (now : String) :
    (∀ (db' : List Prediction) (c : ScoreCounters) (i : Nat) (q : Prediction),
      score_pending_predictions db markets sport limit now
          = Except.ok (db', c) →
      db[i]? = some q → q.actual_outcome ≠ none →
      (∀ p ∈ db, p.actual_outcome = none → p.id ≠ q.id) →
      db'[i]? = some q) ∧
    ((∀ p ∈ db, p.actual_outcome ≠ none) →
      score_pending_predictions db markets sport limit now
        = Except.ok (db, ⟨0, 0, 0, 0, 0⟩)) := by
  constructor
  · intro db' c i q h hq hres hid
    unfold score_pending_predictions at h
    dsimp only at h
    split at h
    · injection h with h
      injection h with h1 h2
      subst h1
      exact hq
    · refine scoreLoop_frame now (marketLookup markets) _ _ _ _ _ h i q hq ?_
      intro u hu
      have hsplit := List.mem_filter.mp hu
      exact hid u (collectPreds_subset _ _ _ _ _ hsplit.1)
        (Option.isNone_iff_eq_none.mp hsplit.2)
  · intro hall
    unfold score_pending_predictions
    dsimp only
    have hnil :
        (get_predictions_local db limit sport false).filter
          (fun p => p.actual_outcome.isNone) = [] := by
      rw [List.filter_eq_nil_iff]
      intro a ha
      have hmem : a ∈ db := collectPreds_subset _ _ _ _ _ ha
      simp [Option.isNone_iff_eq_none, hall a hmem]
    rw [hnil]
    rfl

/-- Witness for C6: in a store holding the resolved record pR and the pending
pQ, a scoring run leaves pR in place, and scoring a store holding only
resolved records is a no-op with zero counters. -/
theorem scoring_skips_resolved_witness :
    ([pR, pQ] : List Prediction)[0]? = some pR ∧
    score_pending_predictions [pR] [] none 100 "now"
      = Except.ok ([pR], ⟨0, 0, 0, 0, 0⟩) := by
  constructor
  · exact (scoring_skips_resolved [pR, pQ] [] none 100 "now").1
      [pR, pQ] ⟨1, 0, 0, 0, 1⟩ 0 pR (by with_unfolding_all rfl)
      (by with_unfolding_all rfl) (by with_unfolding_all decide)
      (by
        intro p hp hpn
        simp at hp
        rcases hp with rfl | rfl
        · exact absurd hpn (by with_unfolding_all decide)
        · with_unfolding_all decide)
  · exact (scoring_skips_resolved [pR] [] none 100 "now").2
      (by
        intro p hp
        simp at hp
        subst hp
        with_unfolding_all decide)

/-- C4 amended: the predictor batch loop catches the failure of a single
market, skipping exactly the failed and the prediction-less markets while
keeping a prediction for every market whose step succeeded; the scorer loop
has no per-item handler, and its outcome step get_market_outcome_py raises
for every closed market with tokens, so whenever any pending prediction of
the batch hits such a market the whole scoring batch aborts with that
failure, whatever the resolver does. -/
theorem predictor_isolated_scorer_aborts :
    (∀ (step : Market → Except Unit (Option Prediction)) (markets : List Market),
      predictLoop step markets
        = markets.filterMap (fun m =>
            match step m with
            | Except.ok (some p) => some p
            | Except.ok none => none
            | Except.error _ => none)) ∧
    (∀ m : Market, m.closed = true → m.tokens ≠ [] →
      get_market_outcome_py m = Except.error ()) ∧
    (∀ (rf : List Prediction → Option String → String →
        Except Unit (List Prediction × Option Prediction))
        (lk : String → Option Market) (l db : List Prediction)
        (c : ScoreCounters),
      (∃ p ∈ l, ∃ mkt, lk p.market_id = some mkt ∧
        get_market_outcome_py mkt = Except.error ()) →
      scoreLoop_py rf lk l db c = Except.error ()) := by
  refine ⟨?_, ?_, ?_⟩
  · intro step markets
    induction markets with
    | nil => rfl
    | cons m rest ih =>
      cases hs : step m with
      | ok o =>
        cases o <;> simp [predictLoop, hs, List.filterMap_cons, ih]
      | error e =>
        simp [predictLoop, hs, List.filterMap_cons, ih]
  · intro m h1 h2
    unfold get_market_outcome_py
    rw [h1]
    cases htk : m.tokens with
    | nil => exact absurd htk h2
    | cons t ts => rfl
  · intro rf lk l
    induction l with
    | nil =>
      rintro db c ⟨p, hp, -⟩
      cases hp
    | cons q rest ih =>
      rintro db c ⟨u, hu, mkt, hlk, herr⟩
      unfold scoreLoop_py
      rcases List.mem_cons.mp hu with rfl | hu'
      · rw [hlk]
        dsimp only
        rw [herr]
      · cases hlk2 : lk q.market_id with
        | none =>
          dsimp only
          exact ih _ _ ⟨u, hu', mkt, hlk, herr⟩
        | some mkt2 =>
          dsimp only
          cases hout2 : get_market_outcome_py mkt2 with
          | error e => rfl
          | ok o =>
            cases o with
            | none =>
              dsimp only
              exact ih _ _ ⟨u, hu', mkt, hlk, herr⟩
            | some oo =>
              dsimp only
              cases hsp : score_prediction rf db q oo with
              | error e => rfl
              | ok r =>
                dsimp only
                exact ih _ _ ⟨u, hu', mkt, hlk, herr⟩

/-- Counterexample to C4 on the scorer side: a batch holding the scorable
prediction A, whose market is closed with tokens and so makes the outcome
step raise AttributeError, and the prediction Q, whose market is absent from
the batch, aborts with an exception and reports nothing, although the same
loop run on Q alone returns a counted result; the failure of one prediction
of the batch thus prevents the result of the other. -/
theorem scorer_batch_abort :
    scoreLoop_py (localResolve "now") (marketLookup [mkResolved]) [pA, pQ]
        [pA, pQ] ⟨2, 0, 0, 0, 0⟩
      = Except.error () ∧
    scoreLoop_py (localResolve "now") (marketLookup [mkResolved]) [pQ]
        [pQ] ⟨1, 0, 0, 0, 0⟩
      = Except.ok ([pQ], ⟨1, 0, 0, 0, 1⟩) := by
  constructor <;> with_unfolding_all rfl

/-- Witness for the amended C4, applying its predictor conjunct to a
one-market batch, its outcome-step conjunct to the concrete closed market,
and its scorer conjunct to a concrete aborting run. -/
theorem predictor_isolated_scorer_aborts_witness :
    predictLoop (fun m => Except.ok (predict_market stNone m)) [mC7]
      = [mC7].filterMap (fun m =>
          match (Except.ok (predict_market stNone m) : Except Unit (Option Prediction)) with
          | Except.ok (some p) => some p
          | Except.ok none => none
          | Except.error _ => none) ∧
    get_market_outcome_py mkResolved = Except.error () ∧
    scoreLoop_py (localResolve "now") (marketLookup [mkResolved]) [pA] [pA]
        ⟨1, 0, 0, 0, 0⟩
      = Except.error () :=
  ⟨predictor_isolated_scorer_aborts.1
     (fun m => Except.ok (predict_market stNone m)) [mC7],
   predictor_isolated_scorer_aborts.2.1 mkResolved rfl
     (by with_unfolding_all decide),
   predictor_isolated_scorer_aborts.2.2 (localResolve "now")
     (marketLookup [mkResolved]) [pA] [pA] ⟨1, 0, 0, 0, 0⟩
     ⟨pA, List.mem_cons_self pA [], mkResolved, by with_unfolding_all rfl,
      rfl⟩⟩

/-- The stage counting fold of update_metrics computes exactly the standalone
totals the specification describes, for any starting accumulator. -/
lemma stageCounts_foldl (get_conf : Prediction → ℚ) :
    ∀ (l : List Prediction) (a b : Nat),
      l.foldl (stageStep get_conf) (a, b)
        = (a + specStandaloneTotal l,
           b + specStandaloneCorrect get_conf l) := by
  intro l
  induction l with
  | nil =>
    intro a b
    simp [specStandaloneTotal, specStandaloneCorrect]
  | cons p rest ih =>
    intro a b
    rw [List.foldl_cons]
    by_cases ht : truthyStr p.actual_outcome
    · by_cases hm :
        pyLower (if (0.5 : ℚ) < get_conf p then "Yes" else "No")
          = pyLower (p.actual_outcome.getD "")
      · have hstep : stageStep get_conf (a, b) p = (a + 1, b + 1) := by
          unfold stageStep
          dsimp only
          rw [if_pos ht, if_pos hm]
        rw [hstep, ih]
        unfold specStandaloneTotal specStandaloneCorrect
        simp [List.filter_cons, ht, hm, Prod.mk.injEq]
        try omega
      · have hstep : stageStep get_conf (a, b) p = (a + 1, b) := by
          unfold stageStep
          dsimp only
          rw [if_pos ht, if_neg hm]
        rw [hstep, ih]
        unfold specStandaloneTotal specStandaloneCorrect
        simp [List.filter_cons, ht, hm, Prod.mk.injEq]
        try omega
    · have hstep : stageStep get_conf (a, b) p = (a, b) := by
        unfold stageStep
        dsimp only
        rw [if_neg ht]
      rw [hstep, ih]
      unfold specStandaloneTotal specStandaloneCorrect
      have ht' : truthyStr p.actual_outcome = false := by
        exact Bool.not_eq_true _ ▸ eq_false_of_ne_true ht
      simp [List.filter_cons, ht', Prod.mk.injEq]
      try omega

/-- The counting pass equals the spec-worded standalone counts. -/
lemma stageCounts_spec (get_conf : Prediction → ℚ) (resolved : List Prediction) :
    stageCounts get_conf resolved
      = (specStandaloneTotal resolved, specStandaloneCorrect get_conf resolved) := by
  unfold stageCounts
  rw [stageCounts_foldl]
  simp

/-- C3 amended: the metrics dictionary update_metrics computes and returns
does measure the standalone accuracy of each stage as the spec words it; the
row persisted per stage by update_model_metrics is recomputed from the stored
is_correct flags over all resolved records, with counts that do not depend on
the stage at all. -/
theorem update_metrics_returned_vs_persisted (db : List Prediction)
    (now : String) :
    (∀ mt M, (mt, M) ∈ update_metrics db →
      M.total_predictions
          = specStandaloneTotal (get_predictions_local db 1000 none true) ∧
      M.correct_predictions
          = specStandaloneCorrect (confOfStage mt)
              (get_predictions_local db 1000 none true)) ∧
    (∀ mt M, update_model_metrics db mt now = some M →
      M.total_predictions = (get_predictions_local db 1000 none true).length ∧
      M.correct_predictions
          = ((get_predictions_local db 1000 none true).filter
              (fun p => truthyBool p.is_correct)).length) := by
  constructor
  · intro mt M hmem
    unfold update_metrics at hmem
    dsimp only at hmem
    split at hmem
    · cases hmem
    · simp only [List.mem_map] at hmem
      obtain ⟨mt0, hmt0, heq⟩ := hmem
      injection heq with e1 e2
      subst e1
      subst e2
      dsimp only
      rw [stageCounts_spec]
      exact ⟨rfl, rfl⟩
  · intro mt M hM
    unfold update_model_metrics at hM
    dsimp only at hM
    split at hM
    · cases hM
    · injection hM with hM
      subst hM
      exact ⟨rfl, rfl⟩

/-- A resolved prediction whose persisted label Yes (hybrid stage, 0.7) was
right while its historical stage confidence 0.2 pointed the other way. -/
def predC3 : Prediction :=
  { id := some "1", market_id := "mm", sport := "nba", event_name := "e",
    predicted_outcome := "Yes", historical_confidence := 0.2,
    sentiment_confidence := 0.6, hybrid_confidence := 0.7,
    actual_outcome := some "Yes", is_correct := some true,
    created_at := none, resolved_at := some "r" }

/-- A store holding exactly the resolved record predC3. -/
def dbC3 : List Prediction := [predC3]

/-- Counterexample to C3: over the store dbC3, the standalone historical count
computed by update_metrics is 0 correct, while the row persisted for the
historical stage by update_model_metrics carries 1 correct, taken from the
stored is_correct flag of the hybrid-label prediction; the persisted counts
therefore do not measure the standalone stage accuracy. -/
theorem persisted_metrics_not_standalone :
    ((update_metrics dbC3).find? (fun e => e.1 == "historical")).map
        (fun e => e.2.correct_predictions) = some 0 ∧
    (update_model_metrics dbC3 "historical" "now").map
        (fun M => M.correct_predictions) = some 1 ∧
    ((update_metrics dbC3).find? (fun e => e.1 == "historical")).map
        (fun e => e.2.correct_predictions)
      ≠ (update_model_metrics dbC3 "historical" "now").map
          (fun M => M.correct_predictions) := by
  refine ⟨?_, ?_, ?_⟩ <;> with_unfolding_all decide

/-- The metrics entry update_metrics returns for the historical stage over
dbC3. -/
def mHistC3 : ModelMetrics :=
  { model_type := "historical", accuracy_7d := 0, accuracy_30d := 0,
    total_predictions := 1, correct_predictions := 0, updated_at := none }

/-- The metrics row update_model_metrics persists for the historical stage
over dbC3. -/
def mPersistC3 : ModelMetrics :=
  { model_type := "historical", accuracy_7d := 1, accuracy_30d := 1,
    total_predictions := 1, correct_predictions := 1,
    updated_at := some "now" }

/-- Witness for the amended C3, applying both conjuncts over the concrete
store dbC3 and the historical stage. -/
theorem update_metrics_returned_vs_persisted_witness :
    (mHistC3.total_predictions
        = specStandaloneTotal (get_predictions_local dbC3 1000 none true) ∧
      mHistC3.correct_predictions
        = specStandaloneCorrect (confOfStage "historical")
            (get_predictions_local dbC3 1000 none true)) ∧
    (mPersistC3.total_predictions
        = (get_predictions_local dbC3 1000 none true).length ∧
      mPersistC3.correct_predictions
        = ((get_predictions_local dbC3 1000 none true).filter
            (fun p => truthyBool p.is_correct)).length) :=
  ⟨(update_metrics_returned_vs_persisted dbC3 "now").1 "historical" mHistC3
      (by with_unfolding_all decide),
   (update_metrics_returned_vs_persisted dbC3 "now").2 "historical" mPersistC3
      (by with_unfolding_all rfl)⟩

end SportsPicker
